import Mathlib

/-!
Verification of the WhatsApp auto-reply bot backend
(session registry, message pipeline, reply engine, rate limiter).

The JavaScript sources are shallowly embedded as executable Lean
definitions.  Strings are modelled as Lean `String`/`List Char`
(codepoints); where JavaScript's UTF-16 `length` matters it is modelled
explicitly by `utf16Len`.  Clock values are milliseconds as `Nat`.
JavaScript `Map`s are modelled as insertion-ordered association lists.
-/

namespace WABot

/-! ## JavaScript value semantics helpers -/

/-- A JavaScript value as it appears in the conditions we model:
a boolean or a number.  Used to model JS truthiness and `||`. -/
inductive JsVal : Type where
  | bool (b : Bool)
  | num (n : Int)
deriving DecidableEq

/-- JS truthiness: `false` and `0` are falsy. -/
def jsTruthy : JsVal → Bool
  | .bool b => b
  | .num n => decide (n ≠ 0)

/-- JS `a || b`: returns `a` if truthy, else `b`. -/
def jsOr (a b : JsVal) : JsVal :=
  if jsTruthy a then a else b

/-- `pat` is a prefix of `s` (JS `String.prototype.startsWith`). -/
def listHasPre (pat s : List Char) : Bool :=
  match pat, s with
  | [], _ => true
  | _ :: _, [] => false
  | p :: ps, c :: cs => p == c && listHasPre ps cs

/-- `pat` occurs as a contiguous substring of `s` (JS `String.prototype.includes`). -/
def listHasSub (pat s : List Char) : Bool :=
  match s with
  | [] => listHasPre pat []
  | _ :: cs => listHasPre pat s || listHasSub pat cs

/-- JS `s.includes(pat)` on strings. -/
def strContainsSub (s pat : String) : Bool :=
  listHasSub pat.data s.data

/-- The JS `\s` whitespace class (also used by `String.prototype.trim`). -/
def isJsSpace (c : Char) : Bool :=
  c == ' ' || c == '\t' || c == '\n' || c == '\r' ||
  c.toNat == 11 || c.toNat == 12 ||
  c.toNat == 0xA0 || c.toNat == 0x1680 ||
  (0x2000 ≤ c.toNat && c.toNat ≤ 0x200A) ||
  c.toNat == 0x2028 || c.toNat == 0x2029 ||
  c.toNat == 0x202F || c.toNat == 0x205F ||
  c.toNat == 0x3000 || c.toNat == 0xFEFF

/-- JS line terminators (which `.` in a regex does not match). -/
def isLineTerm (c : Char) : Bool :=
  c == '\n' || c == '\r' || c.toNat == 0x2028 || c.toNat == 0x2029

/-- The JS `\d` digit class `[0-9]`. -/
def isDigitChar (c : Char) : Bool :=
  '0' ≤ c && c ≤ '9'

/-- JS `String.prototype.trim` on a char list: strip whitespace from both ends. -/
def trimChars (l : List Char) : List Char :=
  ((l.dropWhile isJsSpace).reverse.dropWhile isJsSpace).reverse

/-- JS `String.prototype.trim`. -/
def jsTrim (s : String) : String :=
  String.mk (trimChars s.data)

/-- JS string `length` (UTF-16 code units): astral codepoints count twice. -/
def utf16Len (l : List Char) : Nat :=
  (l.map (fun c => if 0x10000 ≤ c.toNat then 2 else 1)).sum

/-- JS `s.substring(0, budget)` measured in UTF-16 code units
(stops before a codepoint that does not fully fit). -/
def utf16Take (budget : Nat) (l : List Char) : List Char :=
  match l with
  | [] => []
  | c :: cs =>
    let w := if 0x10000 ≤ c.toNat then 2 else 1
    if w ≤ budget then c :: utf16Take (budget - w) cs else []

/-! JS `Map` modelled as an insertion-ordered association list:
`set` updates in place or appends, `get` finds the first match,
`delete` removes the key. -/

/-- JS `Map.prototype.get` (`none` = `undefined`). -/
def mapGet {α : Type} : List (String × α) → String → Option α
  | [], _ => none
  | (k', v) :: rest, k => if k' = k then some v else mapGet rest k

/-- JS `Map.prototype.set`: update the existing entry in place, else append. -/
def mapSet {α : Type} : List (String × α) → String → α → List (String × α)
  | [], k, v => [(k, v)]
  | (k', v') :: rest, k, v =>
    if k' = k then (k, v) :: rest else (k', v') :: mapSet rest k v

/-- JS `Map.prototype.delete`. -/
def mapDel {α : Type} (m : List (String × α)) (k : String) : List (String × α) :=
  m.filter (fun p => !(p.1 == k))

/-- JS `Set.prototype.add` on a set of strings. -/
def setAdd (s : List String) (x : String) : List String :=
  if x ∈ s then s else s ++ [x]

/-- JS `parseInt(env) || d`: `none` models `NaN` (unset/non-numeric env var),
and a parsed `0` is falsy, so both fall back to the default `d`. -/
def orDefault (v : Option Nat) (d : Nat) : Nat :=
  match v with
  | some n => if n = 0 then d else n
  | none => d

/-! ## Conversation history (class `AIReply`, `src/unnamed/part_000`) -/

/-- One conversation turn stored by `AIReply.updateConversationHistory`
(`timestamp` is the `toISOString()` instant, modelled as ms). -/
structure ConvTurn : Type where
  userMessage : String
  aiReply : String
  language : String
  timestamp : Nat
deriving DecidableEq

/-- `AIReply.updateConversationHistory` (part_000 lines 645-661):
push the new turn; if the list then exceeds 10, `shift()` the oldest. -/
def updateConversationHistory (history : List ConvTurn) (t : ConvTurn) : List ConvTurn :=
  if 10 < (history ++ [t]).length then (history ++ [t]).tail else history ++ [t]

/-! ## Conversation history (class `GeminiAI`, `src/unnamed/part_001`) -/

/-- One entry of `GeminiAI.chatHistory`: a `User` or `Bot` message. -/
structure ChatMsg : Type where
  type : String
  message : String
  timestamp : Nat
deriving DecidableEq

/-- `GeminiAI.updateChatHistory` (part_001 lines 114-137):
push the user message and the bot reply; if the list then exceeds 10,
keep only the last 10 (`slice(-10)`). -/
def updateChatHistory (history : List ChatMsg) (u b : ChatMsg) : List ChatMsg :=
  if 10 < (history ++ [u, b]).length then
    (history ++ [u, b]).drop ((history ++ [u, b]).length - 10)
  else history ++ [u, b]

/-! ## Rate limiting -/

/-- One entry of `AIReply.rateLimits`: count in the current window and
the window reset instant (ms). -/
structure RLEntry : Type where
  count : Nat
  resetTime : Nat
deriving DecidableEq

/-- The JS comparison `count >= parseInt(process.env.MESSAGE_RATE_LIMIT)`:
`none` models `NaN` (env var unset or non-numeric), and every comparison
with `NaN` is false. -/
def jsGeqEnv (count : Nat) (limit : Option Nat) : Bool :=
  match limit with
  | some l => decide (l ≤ count)
  | none => false

/-- `AIReply.checkRateLimit` (part_000 lines 663-682), acting on the
`rateLimits` map.  The guard in the source is
`if (userLimits.count >= parseInt(process.env.MESSAGE_RATE_LIMIT) || 2)`,
i.e. `(count >= parseInt(..)) || 2` by JS precedence; the literal `2` is
modelled as the JS value it is.  When the map already holds an entry, the
window-reset assignment mutates that entry in place, so it persists even
on the deny path; a freshly defaulted `{count: 0, resetTime: now}` object
is only stored by the explicit `set` on the allow path. -/
def checkRateLimit (limit : Option Nat) (nowMs : Nat)
    (m : List (String × RLEntry)) (fromNumber : String) :
    Bool × List (String × RLEntry) :=
  match mapGet m fromNumber with
  | some e =>
    let u := if e.resetTime < nowMs then RLEntry.mk 0 (nowMs + 60000) else e
    if jsTruthy (jsOr (JsVal.bool (jsGeqEnv u.count limit)) (JsVal.num 2)) then
      (false, mapSet m fromNumber u)
    else
      (true, mapSet m fromNumber (RLEntry.mk (u.count + 1) u.resetTime))
  | none =>
    let u := RLEntry.mk 0 nowMs
    if jsTruthy (jsOr (JsVal.bool (jsGeqEnv u.count limit)) (JsVal.num 2)) then
      (false, m)
    else
      (true, mapSet m fromNumber (RLEntry.mk (u.count + 1) u.resetTime))

/-- `GeminiAI.canReply` (part_001 lines 140-148): allow when no reply was
ever sent to this contact, or when more than `60000 / maxPerMinute` ms
have passed since the last one. -/
def canReply (maxPerMinute : Nat) (nowMs : Nat)
    (lastReplyTime : List (String × Nat)) (contactNumber : String) : Bool :=
  match mapGet lastReplyTime contactNumber with
  | none => true
  | some last => decide (60000 / maxPerMinute < nowMs - last)

/-! ## Language detection (`AIReply.detectLanguage`, part_000 lines 463-484)

The `hinglish` pattern is a pair of look-aheads
`(?=.*[a-zA-Z])(?=.*[ऀ-ॿ])|(?=.*[a-zA-Z])(?=.*(?:hai|...))` with
the `i` flag.  `regex.test` tries every position, and `.` does not match
line terminators, so the pattern matches iff some line of the text
contains a Latin letter together with a Devanagari character, or a Latin
letter together with one of the marker words (as a case-insensitive
substring). -/

/-- Does the list contain a character with codepoint in `[lo, hi]`? -/
def hasRange (lo hi : Nat) (l : List Char) : Bool :=
  l.any (fun c => lo ≤ c.toNat && c.toNat ≤ hi)

/-- Does the list contain a Latin letter `[a-zA-Z]`? -/
def hasLatin (l : List Char) : Bool :=
  l.any (fun c => ('a' ≤ c && c ≤ 'z') || ('A' ≤ c && c ≤ 'Z'))

/-- Split into the maximal line segments not containing line terminators. -/
def splitLines : List Char → List (List Char)
  | [] => [[]]
  | c :: cs =>
    match splitLines cs with
    | [] => [[]]
    | seg :: rest =>
      if isLineTerm c then [] :: seg :: rest else (c :: seg) :: rest

/-- The marker-word alternatives of the `hinglish` pattern. -/
def hinglishMarkers : List (List Char) :=
  ["hai", "hain", "kya", "kaise", "kaha", "kab", "kyun", "jo", "ki",
   "ka", "ke", "ko", "me", "se", "pe", "par"].map String.data

/-- The `hinglish` regex test (see the section comment). -/
def hinglishTest (l : List Char) : Bool :=
  (splitLines l).any (fun seg =>
    (hasLatin seg && hasRange 0x900 0x97F seg) ||
    (hasLatin seg &&
      hinglishMarkers.any (fun m => listHasSub m (seg.map Char.toLower))))

/-- The `english` pattern `/^[a-zA-Z\s.,!?'"]*$/`: every character of the
text belongs to the class (the empty text matches). -/
def englishTest (l : List Char) : Bool :=
  l.all (fun c =>
    ('a' ≤ c && c ≤ 'z') || ('A' ≤ c && c ≤ 'Z') || isJsSpace c ||
    c == '.' || c == ',' || c == '!' || c == '?' || c == '\'' || c == '"')

/-- If `l` starts with an URL match of `/https?:\/\/[^\s]+/` (scheme
followed by at least one non-whitespace character), return the greedy
match length. -/
def urlMatchLen (l : List Char) : Option Nat :=
  let tryScheme := fun (p : List Char) =>
    if listHasPre p l then
      let ns := (l.drop p.length).takeWhile (fun c => !(isJsSpace c))
      if ns.length = 0 then none else some (p.length + ns.length)
    else none
  match tryScheme "https://".data with
  | some n => some n
  | none => tryScheme "http://".data

/-- Remove every match of `/https?:\/\/[^\s]+/g`, scanning left to right
(`fuel` bounds the recursion; it starts at the list length, which
suffices because every step consumes at least one character). -/
def stripUrlsAux (fuel : Nat) (l : List Char) : List Char :=
  match fuel, l with
  | 0, l => l
  | _ + 1, [] => []
  | f + 1, c :: cs =>
    match urlMatchLen (c :: cs) with
    | some n => stripUrlsAux f (cs.drop (n - 1))
    | none => c :: stripUrlsAux f cs

/-- `text.replace(/https?:\/\/[^\s]+/g, '')`. -/
def stripUrls (l : List Char) : List Char :=
  stripUrlsAux l.length l

/-- The cleaning done by `detectLanguage`: remove URLs, remove digits
(`replace(/\d+/g, '')`), trim. -/
def cleanTextOf (l : List Char) : List Char :=
  trimChars ((stripUrls l).filter (fun c => !(isDigitChar c)))

/-- `AIReply.detectLanguage` (part_000 lines 463-484): the ordered
pattern chain over the cleaned text.  (The `marathi` pattern exists in
the pattern table but is never tested.) -/
def detectLanguage (text : String) : String :=
  let clean := cleanTextOf text.data
  if hinglishTest clean then "hinglish"
  else if hasRange 0x900 0x97F clean then "hindi"
  else if hasRange 0x600 0x6FF clean then "urdu"
  else if hasRange 0x980 0x9FF clean then "bengali"
  else if hasRange 0xB80 0xBFF clean then "tamil"
  else if hasRange 0xA80 0xAFF clean then "gujarati"
  else if englishTest clean then "english"
  else "hinglish"

/-! ## Language detection (`GeminiAI.detectLanguage`, part_001 lines 86-106) -/

/-- A JS word character (`\w`), deciding `\b` boundaries. -/
def isWordChar (c : Char) : Bool :=
  ('a' ≤ c && c ≤ 'z') || ('A' ≤ c && c ≤ 'Z') || isDigitChar c || c == '_'

/-- Does `m` occur in `l` delimited by `\b` word boundaries on both sides?
`prev` is the character just before the current position. -/
def boundedSubAux (m : List Char) (prev : Option Char) : List Char → Bool
  | [] => false
  | c :: cs =>
    let okBefore := match prev with
      | none => true
      | some p => !(isWordChar p)
    let rest := (c :: cs).drop m.length
    let okAfter := match rest with
      | [] => true
      | r :: _ => !(isWordChar r)
    (okBefore && listHasPre m (c :: cs) && okAfter) || boundedSubAux m (some c) cs

/-- `/\b(m₁|m₂|...)\b/i.test(text)` for a list of lowercase ASCII words. -/
def boundedWordTest (words : List (List Char)) (l : List Char) : Bool :=
  words.any (fun m => boundedSubAux m none (l.map Char.toLower))

/-- `GeminiAI.detectLanguage` (part_001 lines 86-106). -/
def geminiDetectLanguage (text : String) : String :=
  let hindiChars := hasRange 0x900 0x97F text.data
  let englishChars := hasLatin text.data
  if hindiChars && englishChars then "hinglish"
  else if hindiChars then "hindi"
  else if englishChars then "english"
  else if boundedWordTest
      (["kya", "hai", "hain", "mein", "tum", "aap", "bhi", "kar",
        "kaise", "kaha", "kab"].map String.data) text.data then "hinglish"
  else if boundedWordTest
      (["yaar", "bhai", "dude", "bro", "buddy"].map String.data) text.data then "hinglish"
  else if boundedWordTest
      (["ok", "okay", "thanks", "sorry", "please"].map String.data) text.data then "hinglish"
  else "hinglish"

/-! ## Response sanitation (`AIReply.cleanAIResponse`, part_000 lines 621-639) -/

/-- Helper for the lazy replaces `/\*\*(.*?)\*\*/g`, `/\*(.*?)\*/g` and
`/`(.*?)`/g`: after an opening delimiter, find the nearest closing
delimiter on the same line (since `.` does not match line terminators)
and return the inner text and the remainder, or `none` when no closing
delimiter occurs before a line terminator or the end. -/
def lazyClose (pat : List Char) : List Char → Option (List Char × List Char)
  | [] => none
  | c :: cs =>
    if listHasPre pat (c :: cs) then some ([], (c :: cs).drop pat.length)
    else if isLineTerm c then none
    else
      match lazyClose pat cs with
      | some (inner, rest) => some (c :: inner, rest)
      | none => none

/-- `text.replace(/D(.*?)D/g, '$1')` for a delimiter `D`: each
delimited pair is replaced by its inner text; an unclosed opening
delimiter is left in place.  `fuel` starts at the list length; every
step consumes at least one character. -/
def replaceDelimAux (pat : List Char) (fuel : Nat) (l : List Char) : List Char :=
  match fuel, l with
  | 0, l => l
  | _ + 1, [] => []
  | f + 1, c :: cs =>
    if listHasPre pat (c :: cs) then
      match lazyClose pat (cs.drop (pat.length - 1)) with
      | some (inner, rest) => inner ++ replaceDelimAux pat f rest
      | none => c :: replaceDelimAux pat f cs
    else c :: replaceDelimAux pat f cs

/-- `text.replace(/D(.*?)D/g, '$1')`. -/
def replaceDelim (pat : List Char) (l : List Char) : List Char :=
  replaceDelimAux pat l.length l

/-- The last index holding a newline, if any. -/
def lastNlIdx (l : List Char) : Option Nat :=
  (l.reverse.findIdx? (fun c => c == '\n')).map (fun j => l.length - 1 - j)

/-- `text.replace(/\n\s*\n\s*\n/g, '\n\n')`.  A match starts at a
newline whose whitespace run contains at least two further newlines and
(after greedy backtracking) extends to the last newline of that run; it
is replaced by two newlines.  `fuel` starts at the list length. -/
def collapseNlAux (fuel : Nat) (l : List Char) : List Char :=
  match fuel, l with
  | 0, l => l
  | _ + 1, [] => []
  | f + 1, c :: cs =>
    if c == '\n' then
      let run := cs.takeWhile isJsSpace
      if 2 ≤ run.count '\n' then
        match lastNlIdx run with
        | some k => '\n' :: '\n' :: collapseNlAux f (cs.drop (k + 1))
        | none => c :: collapseNlAux f cs
      else c :: collapseNlAux f cs
    else c :: collapseNlAux f cs

/-- `text.replace(/\n\s*\n\s*\n/g, '\n\n')`. -/
def collapseNewlines (l : List Char) : List Char :=
  collapseNlAux l.length l

/-- `AIReply.cleanAIResponse` (part_000 lines 621-639): strip bold,
italic and code markup, collapse triple blank lines, trim, and truncate
to 500 code units with an ellipsis. -/
def cleanAIResponse (response : String) : String :=
  let s1 := replaceDelim "**".data response.data
  let s2 := replaceDelim "*".data s1
  let s3 := replaceDelim "`".data s2
  let s4 := trimChars (collapseNewlines s3)
  String.mk (if 500 < utf16Len s4 then utf16Take 497 s4 ++ "...".data else s4)

/-! ## Reply generation (`AIReply.generateReply`, part_000 lines 424-461) -/

/-- The process-wide state of the `AIReply` engine. -/
structure AIState : Type where
  conversationHistory : List (String × List ConvTurn)
  rateLimits : List (String × RLEntry)
deriving DecidableEq

/-- `AIReply.getFallbackReply` (part_000 lines 684-696). -/
def getFallbackReply (language : String) : String :=
  if language = "hinglish" then "Sorry yaar, thoda issue ho gaya. Tum bolo kya chahiye? 😅"
  else if language = "hindi" then "माफ करें, कुछ समस्या हो गई। आप बताएं क्या चाहिए? 😅"
  else if language = "english" then "Sorry, I encountered an issue. What can I help you with? 😅"
  else if language = "urdu" then "معاف کریں، کچھ مسئلہ ہو گیا۔ آپ بتائیں کیا چاہیے؟ 😅"
  else if language = "bengali" then "দুঃখিত, কিছু সমস্যা হয়েছে। আপনি বলুন কী লাগবে? 😅"
  else if language = "tamil" then "மன்னிக்கவும், சில பிரச்சனை ஏற்பட்டது. நீங்கள் என்ன வேண்டும் என்று சொல்லுங்கள்? 😅"
  else if language = "gujarati" then "માફ કરશો, થોડી સમસ્યા થઈ. તમે કહો શું જોઈએ? 😅"
  else "Sorry yaar, thoda issue ho gaya. Tum bolo kya chahiye? 😅"

/-- `AIReply.generateReply` (part_000 lines 424-461).  `apiRaw` is the
outcome of `callGeminiAPI`'s HTTP call: `some raw` when a payload with a
candidate text arrived, `none` on timeout, error response or malformed
payload (`callGeminiAPI` catches those internally and returns `null`).
The prompt built from the history feeds only the remote call, which is
the `apiRaw` parameter.  `if (aiResponse)` is JS truthiness, so a `null`
or empty cleaned response selects the language-specific fallback, and in
both fallback paths the conversation history is left untouched. -/
def aiGenerateReply (limit : Option Nat) (nowMs : Nat) (apiRaw : Option String)
    (message fromNumber : String) (st : AIState) : Option String × AIState :=
  let rl := checkRateLimit limit nowMs st.rateLimits fromNumber
  let st1 : AIState := { st with rateLimits := rl.2 }
  if !rl.1 then (none, st1)
  else
    let language := detectLanguage message
    let aiResponse := apiRaw.map (fun raw => cleanAIResponse (jsTrim raw))
    match aiResponse with
    | some r =>
      if r.isEmpty then (some (getFallbackReply language), st1)
      else
        let history := (mapGet st1.conversationHistory fromNumber).getD []
        let newHist := updateConversationHistory history
          (ConvTurn.mk message r language nowMs)
        let newMap := mapSet st1.conversationHistory fromNumber newHist
        (some r, { st1 with conversationHistory := newMap })
    | none => (some (getFallbackReply language), st1)

/-! ## Reply generation (`GeminiAI.generateReply`, part_001 lines 21-56) -/

/-- The process-wide state of the `GeminiAI` engine. -/
structure GeminiState : Type where
  chatHistory : List (String × List ChatMsg)
  lastReplyTime : List (String × Nat)
deriving DecidableEq

/-- `GeminiAI.getFallbackReply`'s fixed fallback set (part_001 lines 151-161). -/
def geminiFallbackReplies : List String :=
  ["Sorry yaar, thoda technical issue ho gaya 😅 Kya keh rahe the?",
   "Arre yaar, samjha nahi. Thoda aur detail mein batao na 🤔",
   "Oops! Kuch problem hai mere system mein. Dobara try karo 😊",
   "Sorry bro, connection issue hai. Thoda wait karo 🙏",
   "Arre, maine suna nahi properly. Phir se bolo na 👂"]

/-- `GeminiAI.getFallbackReply`: pick `fallbackReplies[floor(random*5)]`. -/
def geminiFallback (randIdx : Fin 5) : String :=
  geminiFallbackReplies.getD randIdx.val ""

/-- `GeminiAI.generateReply` (part_001 lines 21-56).  `apiResult` is the
outcome of `model.generateContent`: `.ok text` on success, `.error ()`
when the call threw (timeout or error), in which case the `catch` block
returns a random fixed fallback and neither `chatHistory` nor
`lastReplyTime` is updated. -/
def geminiGenerateReply (maxEnv : Option Nat) (nowMs : Nat) (randIdx : Fin 5)
    (apiResult : Except Unit String) (messageText contactNumber : String)
    (st : GeminiState) : Option String × GeminiState :=
  if !(canReply (orDefault maxEnv 2) nowMs st.lastReplyTime contactNumber) then
    (none, st)
  else
    let _language := geminiDetectLanguage messageText
    let history := (mapGet st.chatHistory contactNumber).getD []
    match apiResult with
    | .ok text =>
      let reply := jsTrim text
      let newHist := updateChatHistory history
        (ChatMsg.mk "User" messageText nowMs) (ChatMsg.mk "Bot" reply nowMs)
      (some reply,
       GeminiState.mk (mapSet st.chatHistory contactNumber newHist)
         (mapSet st.lastReplyTime contactNumber nowMs))
    | .error _ => (some (geminiFallback randIdx), st)

/-! ## Message pipeline (`SessionManager.handleIncomingMessage`,
part_000 lines 166-233) -/

/-- The `SessionManager` fields touched by the pipeline, over the state
`γ` of the dependency-injected reply engine (`this.geminiAI`). -/
structure SMState (γ : Type) : Type where
  isReady : Bool
  messageCount : Nat
  activeChats : List String
  ai : γ

/-- An inbound message event: `fromMe`/`sender`/`timestamp` (seconds) /
`body` from the adapter, and the contact fields resolved by
`message.getContact()`. -/
structure InMsg : Type where
  fromMe : Bool
  sender : String
  timestamp : Nat
  body : String
  contactNumber : String
  contactName : String

/-- `SessionManager.handleIncomingMessage` (part_000 lines 166-233),
parameterised over the injected reply engine `gen` (called as
`geminiAI.generateReply(messageText, contact.number, contactName)`).
Returns the new state and the reply delivered, `none` when the message
was dropped or the engine suppressed the reply (`if (aiReply)` is JS
truthiness, so an empty reply is also not sent).  The filter order is
source order: not-ready / from-self, group address, staleness (5 min),
empty body after trim. -/
def handleIncomingMessage {γ : Type}
    (gen : String → String → String → γ → Option String × γ)
    (nowMs : Nat) (st : SMState γ) (msg : InMsg) :
    SMState γ × Option String :=
  if !st.isReady || msg.fromMe then (st, none)
  else if strContainsSub msg.sender "@g.us" then (st, none)
  else if msg.timestamp * 1000 < nowMs - 5 * 60 * 1000 then (st, none)
  else
    let messageText := jsTrim msg.body
    if messageText.isEmpty then (st, none)
    else
      let st1 : SMState γ := { st with activeChats := setAdd st.activeChats msg.contactNumber }
      let res := gen messageText msg.contactNumber msg.contactName st1.ai
      let st2 : SMState γ := { st1 with ai := res.2 }
      match res.1 with
      | some r =>
        if r.isEmpty then (st2, none)
        else ({ st2 with messageCount := st2.messageCount + 1 }, some r)
      | none => (st2, none)

/-! ## Typing simulator (`SessionManager.sendReplyWithTyping`,
part_000 lines 244-248) -/

/-- The typing-delay computation: `baseDelay = min + random * (max - min)`,
`charDelay = reply.length * 30`, `totalDelay = min(baseDelay + charDelay, max)`.
`rand` is the `Math.random()` sample in `[0, 1)`; the reply length is the
JS UTF-16 length. -/
def typingDelay (tmin tmax rand : ℚ) (reply : List Char) : ℚ :=
  let baseDelay := tmin + rand * (tmax - tmin)
  let charDelay := (utf16Len reply : ℚ) * 30
  min (baseDelay + charDelay) tmax

/-! ## Session connection lifecycle (`SessionManager`, part_000
lines 140-150 and 314-353) -/

/-- The lifecycle fields of a `SessionManager`: whether the adapter
client handle exists (`this.client !== null`), readiness, the QR retry
counter, and the delay of a scheduled automatic restart (`setTimeout`),
if any. -/
structure ConnState : Type where
  hasClient : Bool
  isReady : Bool
  qrRetries : Nat
  pendingRestartMs : Option Nat
deriving DecidableEq

/-- The adapter events whose handlers touch the lifecycle fields
modelled here (part_000 lines 104-150). -/
inductive AdapterEvent : Type where
  | authenticated
  | ready
  | disconnected
deriving DecidableEq

/-- The `disconnected` handler (part_000 lines 140-150): clear
readiness and schedule an automatic restart after the fixed 5000 ms. -/
def onDisconnected (s : ConnState) : ConnState :=
  { s with isReady := false, pendingRestartMs := some 5000 }

/-- `SessionManager.stopClient` (part_000 lines 337-353): when a client
handle exists, clear readiness, then `await this.client.destroy()` and
null the handle; in all cases emit a manual `disconnected`
notification.  `teardownOk = false` models a throwing `destroy()`: the
`catch` block only logs, so `this.client = null` is skipped and the
handle (with its live event handlers) survives, readiness having
already been cleared.  No restart is scheduled by this function. -/
def stopClient (s : ConnState) (teardownOk : Bool) : ConnState :=
  if s.hasClient then
    if teardownOk then { s with isReady := false, hasClient := false }
    else { s with isReady := false }
  else s

/-- One adapter event delivered to the handlers.  The handlers are
registered on the client object, so after `stopClient` nulls the handle
no adapter event is processed. -/
def adapterStep (s : ConnState) (e : AdapterEvent) : ConnState :=
  if !s.hasClient then s
  else
    match e with
    | .authenticated => { s with qrRetries := 0 }
    | .ready => { s with isReady := true }
    | .disconnected => onDisconnected s

/-! ## Session registry (`WhatsAppHandler`, src/whatsapp-handler.js) -/

/-- `WhatsAppHandler.createClient` (whatsapp-handler.js lines 65-129):
return the existing client for the id if present; otherwise fail when
the registry already holds `maxSessions` clients; otherwise construct a
client (modelled by the opaque id `freshClient`), register and return
it. -/
def createClient (maxSessions : Nat) (reg : List (String × Nat))
    (sessionId : String) (freshClient : Nat) :
    Except String (Nat × List (String × Nat)) :=
  match mapGet reg sessionId with
  | some c => .ok (c, reg)
  | none =>
    if maxSessions ≤ reg.length then
      .error "Maximum sessions limit reached"
    else
      .ok (freshClient, mapSet reg sessionId freshClient)

/-- `WhatsAppHandler.destroySession` (whatsapp-handler.js lines 253-277):
when the id is unknown, log and return `false`; otherwise destroy the
client (`teardownOk = false` models a thrown teardown error, swallowed
by the `catch` block, which still deletes the registry entry) and return
`true` on clean teardown, `false` otherwise.  The session-file cleanup
catches its own errors.  The function never throws. -/
def destroySession (reg : List (String × Nat)) (sessionId : String)
    (teardownOk : Bool) : Bool × List (String × Nat) :=
  match mapGet reg sessionId with
  | none => (false, reg)
  | some _ => (teardownOk, mapDel reg sessionId)

/-- `WhatsAppHandler.formatPhoneNumber` (whatsapp-handler.js lines
200-215): strip non-digits, prepend `'91'` when the digit string is 10
long and does not already start with `'91'`, and append `'@c.us'` when
not already present. -/
def formatPhoneNumber (number : String) : String :=
  let digits := number.data.filter isDigitChar
  let f2 := if !(listHasPre "91".data digits) && digits.length == 10
            then "91".data ++ digits else digits
  let f3 := if !(listHasSub "@c.us".data f2) then f2 ++ "@c.us".data else f2
  String.mk f3

/-- Modelled from the claim's words (refinement comparison for the
direct-send target): strip non-digits, prepend `'91'` exactly when the
digit string is 10 long and does not already start with `'91'`, always
append `'@c.us'`. -/
def claimPhoneTarget (number : String) : String :=
  let digits := number.data.filter isDigitChar
  let d2 := if digits.length == 10 && !(listHasPre "91".data digits)
            then "91".data ++ digits else digits
  String.mk (d2 ++ "@c.us".data)

/-! ## Helper lemmas -/

/-- In `b || 2`, the literal `2` is truthy, so the whole disjunction is. -/
theorem jsOr_num_two_truthy (b : Bool) :
    jsTruthy (jsOr (JsVal.bool b) (JsVal.num 2)) = true := by
  cases b <;> rfl

/-- The rate-limit guard `(count >= parseInt(env)) || 2` is always
truthy, so `checkRateLimit` denies every attempt. -/
theorem checkRateLimit_denies (limit : Option Nat) (nowMs : Nat)
    (m : List (String × RLEntry)) (k : String) :
    (checkRateLimit limit nowMs m k).1 = false := by
  unfold checkRateLimit
  cases h : mapGet m k <;> simp [jsOr_num_two_truthy]

/-! ## Claim theorems -/

/-- Claim C1: the spec's fixed-window rate limiter (reset on elapsed
window, deny at the quota, otherwise increment and allow) is what the
code intends but not what it does: by JS operator precedence the guard
`userLimits.count >= parseInt(process.env.MESSAGE_RATE_LIMIT) || 2`
is `(count >= parseInt(..)) || 2`, which is always truthy, so
`AIReply.checkRateLimit` denies every attempt — including the first one
of a fresh window.  `GeminiAI.canReply` likewise denies a 2nd attempt
10 s after the 1st (it enforces a 30 s minimum gap, not a count of 2 per
window). -/
theorem rate_limiter_denies_every_attempt (limit : Option Nat) (nowMs : Nat)
    (m : List (String × RLEntry)) (contact : String) :
    (checkRateLimit limit nowMs m contact).1 = false ∧
    canReply 2 11000 [("c", 1000)] "c" = false := by
  exact ⟨checkRateLimit_denies limit nowMs m contact, by decide⟩

/-- Claim C2: per-contact conversation history is a FIFO capped at 10:
both history-mutating operations preserve `length ≤ 10`; inserting an
11th turn via `AIReply.updateConversationHistory` evicts exactly the
oldest turn and keeps the order of the rest, and below the cap the turn
is appended; `GeminiAI.updateChatHistory` inserts two entries at a time
and from a full history evicts exactly the two oldest, keeping order. -/
theorem history_capped_fifo (h : List ConvTurn) (t : ConvTurn)
    (hh : h.length ≤ 10) (g : List ChatMsg) (u b : ChatMsg)
    (hg : g.length ≤ 10) :
    (updateConversationHistory h t).length ≤ 10 ∧
    (h.length = 10 → updateConversationHistory h t = h.tail ++ [t]) ∧
    (h.length < 10 → updateConversationHistory h t = h ++ [t]) ∧
    (updateChatHistory g u b).length ≤ 10 ∧
    (g.length = 10 → updateChatHistory g u b = g.drop 2 ++ [u, b]) := by
  refine ⟨?_, ?_, ?_, ?_, ?_⟩
  · unfold updateConversationHistory
    split <;> rename_i hc <;>
      simp only [List.length_tail, List.length_append, List.length_cons,
        List.length_nil] at hc ⊢ <;> omega
  · intro h10
    unfold updateConversationHistory
    have hlt : 10 < (h ++ [t]).length := by simp [List.length_append, h10]
    rw [if_pos hlt]
    cases h with
    | nil => simp at h10
    | cons a l => simp
  · intro hlt
    unfold updateConversationHistory
    have : ¬ 10 < (h ++ [t]).length := by simp [List.length_append]; omega
    rw [if_neg this]
  · unfold updateChatHistory
    split <;> rename_i hc <;>
      simp only [List.length_drop, List.length_append, List.length_cons,
        List.length_nil] at hc ⊢ <;> omega
  · intro g10
    unfold updateChatHistory
    have hlt : 10 < (g ++ [u, b]).length := by simp [List.length_append, g10]
    rw [if_pos hlt]
    have hlen : (g ++ [u, b]).length - 10 = 2 := by simp [List.length_append, g10]
    rw [hlen]
    cases g with
    | nil => simp at g10
    | cons a l =>
      cases l with
      | nil => simp at g10
      | cons a2 l2 => simp

/-- Witness for C2 at a concrete full history. -/
theorem history_capped_fifo_witness :
    (updateConversationHistory
        (List.replicate 10 (ConvTurn.mk "u" "r" "english" 0))
        (ConvTurn.mk "new" "nr" "english" 1)).length ≤ 10 ∧
    updateConversationHistory
        (List.replicate 10 (ConvTurn.mk "u" "r" "english" 0))
        (ConvTurn.mk "new" "nr" "english" 1)
      = (List.replicate 10 (ConvTurn.mk "u" "r" "english" 0)).tail
          ++ [ConvTurn.mk "new" "nr" "english" 1] := by
  have h := history_capped_fifo
    (List.replicate 10 (ConvTurn.mk "u" "r" "english" 0))
    (ConvTurn.mk "new" "nr" "english" 1) (by simp)
    (List.replicate 10 (ChatMsg.mk "User" "m" 0)) (ChatMsg.mk "User" "x" 1)
    (ChatMsg.mk "Bot" "y" 1) (by simp)
  exact ⟨h.1, h.2.1 (by simp)⟩

/-- Claim C4: the computed typing delay is
`min(base + length·30, max)` where the base component lies between the
configured min and max; for min = 1000 ms, max = 3000 ms and a reply of
JS length 100 (per-char component 3000 ms) the delay equals exactly
3000 ms for every random sample. -/
theorem typing_delay_formula (tmin tmax rand : ℚ) (reply : List Char)
    (h0 : 0 ≤ rand) (h1 : rand ≤ 1) (hminmax : tmin ≤ tmax) :
    typingDelay tmin tmax rand reply
        = min (tmin + rand * (tmax - tmin) + (utf16Len reply : ℚ) * 30) tmax ∧
    tmin ≤ tmin + rand * (tmax - tmin) ∧
    tmin + rand * (tmax - tmin) ≤ tmax ∧
    (utf16Len reply = 100 → typingDelay 1000 3000 rand reply = 3000) := by
  refine ⟨rfl, ?_, ?_, ?_⟩
  · have := mul_nonneg h0 (sub_nonneg.mpr hminmax)
    linarith
  · have := mul_le_of_le_one_left (sub_nonneg.mpr hminmax) h1
    linarith
  · intro h100
    unfold typingDelay
    rw [h100]
    have hmul : (0 : ℚ) ≤ rand * (3000 - 1000) := by
      apply mul_nonneg h0; norm_num
    have : (3000 : ℚ) ≤ 1000 + rand * (3000 - 1000) + (100 : ℚ) * 30 := by
      linarith
    rw [min_eq_right]
    push_cast
    linarith

/-- Witness for C4: a 100-character reply with `rand = 1/2`. -/
theorem typing_delay_formula_witness :
    typingDelay 1000 3000 (1/2) (List.replicate 100 'x') = 3000 := by
  have h := typing_delay_formula 1000 3000 (1/2) (List.replicate 100 'x')
    (by norm_num) (by norm_num) (by norm_num)
  exact h.2.2.2 (by decide)

/-- Claim C3 counterexample: with an empty history, a rate-allowed
contact and a failing completion call, `GeminiAI.generateReply` returns
a fixed fallback reply but the conversation history stays empty — the
fallback exchange is NOT appended as a turn, contradicting the claim. -/
theorem fallback_exchange_not_recorded_cx :
    geminiGenerateReply none 1000 (0 : Fin 5) (Except.error ()) "hello" "9198"
        (GeminiState.mk [] [])
      = (some "Sorry yaar, thoda technical issue ho gaya 😅 Kya keh rahe the?",
         GeminiState.mk [] []) := by
  rfl

/-- Claim C3 (amended): when the remote completion call fails, no
exception propagates: `GeminiAI.generateReply` returns a fallback drawn
from the fixed fallback list and leaves the conversation history (and
the rate-limit state) unchanged — the fallback exchange is NOT appended
to the history.  `AIReply.generateReply` never even reaches its
(language-selected) fallback path: its buggy rate limiter denies every
attempt, so it always returns `null` with the history unchanged. -/
theorem fallback_reply_not_recorded (maxEnv : Option Nat) (nowMs : Nat)
    (randIdx : Fin 5) (messageText contactNumber : String) (st : GeminiState)
    (hallow : canReply (orDefault maxEnv 2) nowMs st.lastReplyTime contactNumber
      = true) :
    geminiGenerateReply maxEnv nowMs randIdx (Except.error ()) messageText
        contactNumber st = (some (geminiFallback randIdx), st) ∧
    (∀ (limit : Option Nat) (now2 : Nat) (api : Option String)
        (m f : String) (ast : AIState),
      (aiGenerateReply limit now2 api m f ast).1 = none ∧
      (aiGenerateReply limit now2 api m f ast).2.conversationHistory
        = ast.conversationHistory) := by
  constructor
  · unfold geminiGenerateReply
    rw [hallow]
    rfl
  · intro limit now2 api m f ast
    have hd := checkRateLimit_denies limit now2 ast.rateLimits f
    simp [aiGenerateReply, hd]

/-- Witness for C3's amended theorem at a rate-allowed concrete state. -/
theorem fallback_reply_not_recorded_witness :
    geminiGenerateReply none 40000 (2 : Fin 5) (Except.error ()) "hi there"
        "9177" (GeminiState.mk [] [("9177", 100)])
      = (some "Oops! Kuch problem hai mere system mein. Dobara try karo 😊",
         GeminiState.mk [] [("9177", 100)]) := by
  exact (fallback_reply_not_recorded none 40000 (2 : Fin 5) "hi there" "9177"
    (GeminiState.mk [] [("9177", 100)]) (by decide)).1

/-- `Map.set` on an absent key appends the entry. -/
theorem mapSet_absent {α : Type} (m : List (String × α)) (k : String) (v : α)
    (h : mapGet m k = none) : mapSet m k v = m ++ [(k, v)] := by
  induction m with
  | nil => rfl
  | cons p rest ih =>
    obtain ⟨k', v'⟩ := p
    simp only [mapGet] at h
    simp only [mapSet]
    by_cases e : k' = k
    · simp [e] at h
    · simp only [if_neg e] at h ⊢
      simp [ih h]

/-- Claim C5: `createClient` is idempotent on an existing id (and leaves
the registry untouched), fails with the capacity error when the registry
is full and the id is new, and otherwise constructs, registers and
returns a new client. -/
theorem create_client_contract (maxSessions : Nat) (reg : List (String × Nat))
    (sessionId : String) (fresh : Nat) :
    (∀ c, mapGet reg sessionId = some c →
      createClient maxSessions reg sessionId fresh = Except.ok (c, reg)) ∧
    (mapGet reg sessionId = none → maxSessions ≤ reg.length →
      createClient maxSessions reg sessionId fresh
        = Except.error "Maximum sessions limit reached") ∧
    (mapGet reg sessionId = none → reg.length < maxSessions →
      createClient maxSessions reg sessionId fresh
        = Except.ok (fresh, reg ++ [(sessionId, fresh)])) := by
  refine ⟨?_, ?_, ?_⟩
  · intro c hc
    simp [createClient, hc]
  · intro hn hcap
    simp [createClient, hn, hcap]
  · intro hn hcap
    simp [createClient, hn, not_le.mpr hcap, mapSet_absent reg sessionId fresh hn]

/-- Witness for C5: reuse, capacity failure and fresh registration on
concrete registries. -/
theorem create_client_contract_witness :
    createClient 10 [("a", 1)] "a" 5 = Except.ok (1, [("a", 1)]) ∧
    createClient 1 [("a", 1)] "b" 5 = Except.error "Maximum sessions limit reached" ∧
    createClient 10 [("a", 1)] "b" 5 = Except.ok (5, [("a", 1), ("b", 5)]) :=
  ⟨(create_client_contract 10 [("a", 1)] "a" 5).1 1 (by decide),
   (create_client_contract 1 [("a", 1)] "b" 5).2.1 (by decide) (by decide),
   (create_client_contract 10 [("a", 1)] "b" 5).2.2 (by decide) (by decide)⟩

/-- `Map.delete` removes the key. -/
theorem mapGet_mapDel {α : Type} (m : List (String × α)) (k : String) :
    mapGet (mapDel m k) k = none := by
  induction m with
  | nil => rfl
  | cons p rest ih =>
    obtain ⟨k', v'⟩ := p
    simp only [mapDel, List.filter_cons] at ih ⊢
    by_cases e : k' = k
    · simp [e, ih]
    · simp [e, mapGet, ih]

/-- Claim C6 counterexample: destroying the same session twice — the
first call returns `true`, but the second call returns `false` (the
not-found result), not success. -/
theorem destroy_second_returns_false :
    (destroySession [("s1", 0)] "s1" true).1 = true ∧
    (destroySession (destroySession [("s1", 0)] "s1" true).2 "s1" true).1
      = false := by
  exact ⟨rfl, rfl⟩

/-- Claim C6 (amended): `destroySession` never throws (it is a total
function), after it completes the id is absent from the registry even
when adapter teardown errors, and a second consecutive call never
throws and is a no-op on the registry — but it returns `false`, the
not-found result, rather than success. -/
theorem destroy_removes_and_second_noop (reg : List (String × Nat))
    (sid : String) (ok ok2 : Bool) :
    mapGet (destroySession reg sid ok).2 sid = none ∧
    destroySession (destroySession reg sid ok).2 sid ok2
      = (false, (destroySession reg sid ok).2) := by
  have h1 : mapGet (destroySession reg sid ok).2 sid = none := by
    unfold destroySession
    cases h : mapGet reg sid with
    | none => simpa using h
    | some c => simp [mapGet_mapDel]
  have h2 : ∀ (m : List (String × Nat)) (okx : Bool), mapGet m sid = none →
      destroySession m sid okx = (false, m) := by
    intro m okx hm
    unfold destroySession
    rw [hm]
  exact ⟨h1, h2 _ ok2 h1⟩

/-- Claim C7: a group-sourced message (sender address containing
`@g.us`) is dropped before any reply generation: the whole state —
active chats, sent-message counter and the injected reply engine's state
(conversation history and rate limits) — is unchanged and no reply is
sent, for every injected reply engine. -/
theorem group_message_dropped {γ : Type}
    (gen : String → String → String → γ → Option String × γ)
    (nowMs : Nat) (st : SMState γ) (msg : InMsg)
    (hg : strContainsSub msg.sender "@g.us" = true) :
    handleIncomingMessage gen nowMs st msg = (st, none) := by
  unfold handleIncomingMessage
  by_cases h1 : (!st.isReady || msg.fromMe) = true
  · rw [if_pos h1]
  · rw [if_neg h1, if_pos hg]

/-- Witness for C7 with the real `AIReply` engine injected. -/
theorem group_message_dropped_witness :
    handleIncomingMessage
        (fun text num _name ai => aiGenerateReply none 5000000 none text num ai)
        5000000
        (SMState.mk true 3 ["911"] (AIState.mk [] []))
        (InMsg.mk false "12345@g.us" 4999 " hi " "12345" "Group")
      = (SMState.mk true 3 ["911"] (AIState.mk [] []), none) := by
  exact group_message_dropped _ 5000000 _ _ (by decide)

/-- Claim C8 counterexample: `"hello ল"` contains characters of two
scripts (Latin and Bengali), yet `AIReply.detectLanguage` classifies it
as the monolingual `bengali` (and `GeminiAI.detectLanguage` as
`english`), not as the mixed category: the mixing heuristic only covers
Latin+Devanagari co-occurrence and marker words. -/
theorem two_scripts_not_hinglish_cx :
    detectLanguage "hello ল" = "bengali" ∧
    geminiDetectLanguage "hello ল" = "english" ∧
    ("bengali" : String) ≠ "hinglish" := by
  exact ⟨by decide, by decide, by decide⟩

/-- Claim C8 (amended): the script-mixing heuristic is checked before
every single-script check, but it covers exactly the co-occurrence,
within one line of the cleaned text, of a Latin letter with a
Devanagari character, or of a Latin letter with one of the fixed marker
strings occurring as a case-insensitive substring (not as a whole word —
plain English such as `"take it"` is classified `hinglish` because
`"take"` contains `"ke"`): every such input is classified `hinglish`,
never monolingual; texts mixing Latin with another script outside this
coverage (such as Bengali) can be classified monolingual; when no
pattern matches (including the catch-all `english` pattern), the
fallback category is `hinglish`. -/
theorem mixed_latin_devanagari_hinglish (text : String) (seg : List Char)
    (hseg : seg ∈ splitLines (cleanTextOf text.data))
    (hl : hasLatin seg = true)
    (hmix : hasRange 0x900 0x97F seg = true ∨
      hinglishMarkers.any (fun m => listHasSub m (seg.map Char.toLower)) = true) :
    detectLanguage text = "hinglish" ∧
    (∀ t : String,
      hinglishTest (cleanTextOf t.data) = false →
      hasRange 0x900 0x97F (cleanTextOf t.data) = false →
      hasRange 0x600 0x6FF (cleanTextOf t.data) = false →
      hasRange 0x980 0x9FF (cleanTextOf t.data) = false →
      hasRange 0xB80 0xBFF (cleanTextOf t.data) = false →
      hasRange 0xA80 0xAFF (cleanTextOf t.data) = false →
      englishTest (cleanTextOf t.data) = false →
      detectLanguage t = "hinglish") := by
  constructor
  · have hh : hinglishTest (cleanTextOf text.data) = true := by
      unfold hinglishTest
      rw [List.any_eq_true]
      refine ⟨seg, hseg, ?_⟩
      cases hmix with
      | inl hd => simp [hl, hd]
      | inr hm => simp [hl, hm]
    simp [detectLanguage, hh]
  · intro t h1 h2 h3 h4 h5 h6 h7
    simp [detectLanguage, h1, h2, h3, h4, h5, h6, h7]

/-- Witness for C8's amended theorem on a Latin+Devanagari input, and
on an all-English input hitting the marker-substring arm (`"take"`
contains `"ke"`). -/
theorem mixed_latin_devanagari_hinglish_witness :
    detectLanguage "hello नमस्ते" = "hinglish" ∧
    detectLanguage "take it" = "hinglish" := by
  refine ⟨?_, ?_⟩
  · exact (mixed_latin_devanagari_hinglish "hello नमस्ते" "hello नमस्ते".data
      (by decide) (by decide) (Or.inl (by decide))).1
  · exact (mixed_latin_devanagari_hinglish "take it" "take it".data
      (by decide) (by decide) (Or.inr (by decide))).1

/-- Claim C9 counterexample: from a ready session, a stop whose
`client.destroy()` throws schedules no restart itself, but it leaves
the handle alive (the `catch` skips `this.client = null`), and a
subsequent adapter-reported disconnect still schedules the automatic
5000 ms restart — so after a stop an automatic restart CAN be
scheduled, contradicting the claim's "never". -/
theorem restart_after_failed_stop_cx :
    (stopClient (ConnState.mk true true 0 none) false).pendingRestartMs = none ∧
    (stopClient (ConnState.mk true true 0 none) false).hasClient = true ∧
    (adapterStep (stopClient (ConnState.mk true true 0 none) false)
        AdapterEvent.disconnected).pendingRestartMs = some 5000 := by
  exact ⟨rfl, rfl, rfl⟩

/-- Claim C9 (amended): the explicit stop command itself never
schedules a restart and clears readiness; when the adapter teardown
succeeds, the handle is nulled and, the handlers dying with it, no
later adapter event is processed, so no automatic restart is ever
scheduled after such a stop.  But when `client.destroy()` throws during
the stop, the handle survives and a subsequent adapter-reported
disconnect still schedules the automatic restart after the fixed
5000 ms delay.  An adapter-reported disconnect of a non-stopped session
always schedules a restart after the fixed 5000 ms delay and clears
readiness. -/
theorem stop_no_restart_disconnect_schedules (s : ConnState)
    (e : AdapterEvent) (ok : Bool) :
    (stopClient s ok).pendingRestartMs = s.pendingRestartMs ∧
    (s.hasClient = true → (stopClient s ok).isReady = false) ∧
    (ok = true → (stopClient s ok).hasClient = false) ∧
    (ok = true → adapterStep (stopClient s ok) e = stopClient s ok) ∧
    (ok = false → s.hasClient = true →
      (adapterStep (stopClient s ok) AdapterEvent.disconnected).pendingRestartMs
        = some 5000) ∧
    (s.hasClient = true →
      (adapterStep s AdapterEvent.disconnected).pendingRestartMs = some 5000 ∧
      (adapterStep s AdapterEvent.disconnected).isReady = false) := by
  obtain ⟨hc, ir, qr, pr⟩ := s
  cases hc <;> cases ok <;>
    refine ⟨?_, ?_, ?_, ?_, ?_, ?_⟩ <;>
      simp [stopClient, adapterStep, onDisconnected]

/-- Witness for C9's amended theorem at a concrete ready session with a
clean teardown. -/
theorem stop_no_restart_disconnect_schedules_witness :
    (stopClient (ConnState.mk true true 0 none) true).pendingRestartMs = none ∧
    (stopClient (ConnState.mk true true 0 none) true).hasClient = false ∧
    (adapterStep (ConnState.mk true true 0 none)
        AdapterEvent.disconnected).pendingRestartMs = some 5000 := by
  have h := stop_no_restart_disconnect_schedules (ConnState.mk true true 0 none)
    AdapterEvent.ready true
  exact ⟨h.1, h.2.2.1 rfl, (h.2.2.2.2.2 rfl).1⟩

/-- A list of digit characters never contains a substring starting
with `'@'`. -/
theorem no_at_sub (rest : List Char) (l : List Char)
    (h : l.all isDigitChar = true) :
    listHasSub ('@' :: rest) l = false := by
  induction l with
  | nil => rfl
  | cons c cs ih =>
    simp only [List.all_cons, Bool.and_eq_true] at h
    have hb : ('@' == c) = false := by
      cases hq : ('@' == c)
      · rfl
      · have e : '@' = c := beq_iff_eq.mp hq
        rw [← e] at h
        exact absurd h.1 (by decide)
    simp only [listHasSub, listHasPre, hb, Bool.false_and, Bool.false_or]
    exact ih h.2

/-- Claim C10: the direct-send phone normalization strips non-digits,
prepends `'91'` exactly when the digit string is 10 long and does not
already start with `'91'`, and always appends `'@c.us'` (the digit
string can never already contain it); hence every delivery target is a
digit string followed by `'@c.us'`.  The first conjunct compares the
source function with `claimPhoneTarget`, written from the claim's
words. -/
theorem phone_target_format (number : String) :
    formatPhoneNumber number = claimPhoneTarget number ∧
    ∃ d : List Char,
      formatPhoneNumber number = String.mk (d ++ "@c.us".data) ∧
      d.all isDigitChar = true := by
  have hall : (number.data.filter isDigitChar).all isDigitChar = true := by
    rw [List.all_eq_true]
    intro x hx
    exact (List.mem_filter.mp hx).2
  have hall91 :
      ('9' :: '1' :: number.data.filter isDigitChar).all isDigitChar = true := by
    simp only [List.all_cons, hall]
    decide
  have hsubD :
      listHasSub ['@', 'c', '.', 'u', 's'] (number.data.filter isDigitChar)
        = false :=
    no_at_sub _ _ hall
  have hsub91 :
      listHasSub ['@', 'c', '.', 'u', 's']
        ('9' :: '1' :: number.data.filter isDigitChar) = false :=
    no_at_sub _ _ hall91
  constructor
  · unfold formatPhoneNumber claimPhoneTarget
    cases h1 : listHasPre "91".data (number.data.filter isDigitChar) <;>
    cases h2 : ((number.data.filter isDigitChar).length == 10) <;>
      simp [h1, h2, hsubD, hsub91]
  · cases hc : (!(listHasPre "91".data (number.data.filter isDigitChar))
        && ((number.data.filter isDigitChar).length == 10)) with
    | false =>
      refine ⟨number.data.filter isDigitChar, ?_, hall⟩
      simp [formatPhoneNumber, hc, hsubD]
    | true =>
      refine ⟨'9' :: '1' :: number.data.filter isDigitChar, ?_, hall91⟩
      simp [formatPhoneNumber, hc, hsub91]

end WABot
